import Mathlib

/-!
Shallow embedding of the `err_report` crate (`src/lib.rs`): the `Report`
error-wrapper type, its provenance `Layer` list, and the result-extension
capabilities (`report`, `report_with_context`, `untyped_report`,
`untyped_err`, `context`).

Modelling conventions:
* `#[track_caller]` location capture is modelled by an explicit `Location`
  argument, which the language injects at the call site in Rust.
* Values of type `Box<dyn Display + Send + Sync>` (layer annotations) are
  modelled by their rendered `String`, the only thing the code observes.
* `dyn Error + Send + Sync` (`AnyError`) is modelled as an existential
  package of a type, a value of that type, and its `Display` function.
* The fallible `first_mut().expect(..)` in `Report::context` is modelled
  with `Option`: `none` is the panic branch.
-/

namespace ErrReport

/-- Rust's `std::panic::Location`: source file, line, column. Its `Display` form is
`file:line:column`. -/
structure Location where
  file : String
  line : Nat
  column : Nat
deriving DecidableEq

def Location.render (l : Location) : String :=
  l.file ++ ":" ++ toString l.line ++ ":" ++ toString l.column

/-- One provenance layer (`struct Layer`): an optional rendered annotation
(`context: Option<Box<dyn Display>>`) and a call-site location. -/
structure Layer where
  context : Option String
  location : Location
deriving DecidableEq

/-- Rendering of `impl Display for Layer` (lib.rs 13-20): `"{context} @ {location}"` when
the context is present, `"@ {location}"` otherwise. -/
def Layer.render (l : Layer) : String :=
  match l.context with
  | some c => c ++ " @ " ++ l.location.render
  | none => "@ " ++ l.location.render

/-- The wrapper `struct Report<E>` (lib.rs 22-28): an owned failure value plus the layer
list. -/
structure Report (ε : Type u) where
  inner : ε
  layers : List Layer
deriving DecidableEq

/-- The `Display` capability of a failure type (the `E: Display` bound). -/
class Disp (ε : Type u) where
  disp : ε → String

instance : Disp String := ⟨id⟩

/-- Rust's `dyn Error + Send + Sync + 'static` as an existential package: the
concrete type, the owned value, and its `Display` function. -/
structure AnyError : Type 1 where
  ty : Type
  val : ty
  dispFn : ty → String

instance : Disp AnyError := ⟨fun a => a.dispFn a.val⟩

/-- Rust's `Vec::join(sep)` on a list of strings. -/
def joinSep (sep : String) : List String → String
  | [] => ""
  | [x] => x
  | x :: y :: xs => x ++ sep ++ joinSep sep (y :: xs)

/-- Rendering of `impl Display for Report` (lib.rs 50-63): the inner failure's form, a
`": "` separator, then each layer's rendering joined by `", "` in layer-list
order. -/
def Report.render [Disp ε] (r : Report ε) : String :=
  Disp.disp r.inner ++ ": " ++ joinSep ", " (r.layers.map Layer.render)

/-- Rendering of `impl Debug for Report` (lib.rs 39-48): `debug_struct("Report")` with the
single field `inner`; the layers are not printed. `dbg` is the inner type's
`Debug` implementation. -/
def Report.debugRender (dbg : ε → String) (r : Report ε) : String :=
  "Report \x7b inner: " ++ dbg r.inner ++ " \x7d"

/-- Constructor `Report::new` (lib.rs 89-102): wrap a failure with a single layer with no
annotation at the caller's location. -/
def Report.new (e : ε) (loc : Location) : Report ε :=
  { inner := e, layers := [{ context := none, location := loc }] }

/-- Erasure `Report::into_untyped` (lib.rs 104-112): erase the failure's type; the
inner value and the layer list are carried over unchanged. -/
def Report.into_untyped {ε : Type} [Disp ε] (r : Report ε) : Report AnyError :=
  { inner := ⟨ε, r.inner, Disp.disp⟩, layers := r.layers }

/-- Annotating `Report::context` (lib.rs 114-127): replace the annotation of the first
layer (`layers.first_mut()`). The `expect` panic on an empty layer list is
the `none` branch. -/
def Report.context (r : Report ε) (ctx : String) : Option (Report ε) :=
  match r.layers with
  | [] => none
  | l :: ls =>
      some { inner := r.inner, layers := { l with context := some ctx } :: ls }

/-- Conversion `impl<E> From<E> for Report<E>` (lib.rs 137-143): delegates to `new`. -/
def Report.fromE (e : ε) (loc : Location) : Report ε :=
  Report.new e loc

/-- Conversion `impl From<Box<AnyError>> for Report<AnyError>` (lib.rs 154-166): a
single absent-annotation layer at the caller's location. -/
def Report.fromBoxAny (a : AnyError) (loc : Location) : Report AnyError :=
  { inner := a, layers := [{ context := none, location := loc }] }

/-- Rust's `Result<T, E>`. -/
inductive RResult (α : Type u) (ε : Type v) where
  | ok (v : α)
  | err (e : ε)
deriving DecidableEq

/-- Rust's `Result::map_err`. -/
def RResult.mapErr (f : ε → ε') : RResult α ε → RResult α ε'
  | .ok v => .ok v
  | .err e => .err (f e)

namespace Raw

/-- Lifting `report` of `ResultIntoReportExt for Result<T, E>` (lib.rs 216-221): lift a
raw failure with `Report::new`. -/
def report (loc : Location) : RResult α ε → RResult α (Report ε)
  | .ok r => .ok r
  | .err e => .err (Report.new e loc)

/-- Lifting `report_with_context` of `ResultIntoReportExt for Result<T, E>`
(lib.rs 225-234): `Report::new(e).context(context)`; `none` would be the
(unreachable) panic of `context`. -/
def report_with_context (loc : Location) (ctx : String) :
    RResult α ε → Option (RResult α (Report ε))
  | .ok r => some (.ok r)
  | .err e => ((Report.new e loc).context ctx).map RResult.err

/-- Lifting `untyped_report` of `ResultIntoReportExt for Result<T, E>`
(lib.rs 238-247):
`Report::new(e).into_untyped()`. -/
def untyped_report {ε : Type} [Disp ε] (loc : Location) :
    RResult α ε → RResult α (Report AnyError)
  | .ok r => .ok r
  | .err e => .err ((Report.new e loc).into_untyped)

end Raw

namespace Wrapped

/-- Enriching `report` of `ResultIntoReportExt for Result<T, Report<E>>`
(lib.rs 252-273):
prepend (`layers.insert(0, ..)`) one fresh absent-annotation layer; the inner
failure is reused, never re-wrapped. -/
def report (loc : Location) : RResult α (Report ε) → RResult α (Report ε)
  | .ok r => .ok r
  | .err e =>
      .err { inner := e.inner,
             layers := { context := none, location := loc } :: e.layers }

/-- Enriching `report_with_context` of
`ResultIntoReportExt for Result<T, Report<E>>` (lib.rs 275-295): prepend one layer carrying the supplied annotation. -/
def report_with_context (loc : Location) (ctx : String) :
    RResult α (Report ε) → RResult α (Report ε)
  | .ok r => .ok r
  | .err e =>
      .err { inner := e.inner,
             layers := { context := some ctx, location := loc } :: e.layers }

/-- Enriching `untyped_report` of
`ResultIntoReportExt for Result<T, Report<E>>` (lib.rs 297-317): prepend one absent-annotation layer and erase the inner
failure's type (`Box<E>` unsize-coerces to `Box<AnyError>`). -/
def untyped_report {ε : Type} [Disp ε] (loc : Location) :
    RResult α (Report ε) → RResult α (Report AnyError)
  | .ok r => .ok r
  | .err e =>
      .err { inner := ⟨ε, e.inner, Disp.disp⟩,
             layers := { context := none, location := loc } :: e.layers }

end Wrapped

/-- Erasing `ResultReportExt::untyped_err` (lib.rs 335-338):
`self.map_err(|e| e.into_untyped())`. -/
def untyped_err {ε : Type} [Disp ε] :
    RResult α (Report ε) → RResult α (Report AnyError) :=
  RResult.mapErr Report.into_untyped

/-- Annotating `ResultReportExt::context` (lib.rs 340-346):
`self.map_err(|e| e.context(context))`; `none` is the panic branch of
`Report::context`. -/
def resContext (ctx : String) :
    RResult α (Report ε) → Option (RResult α (Report ε))
  | .ok v => some (.ok v)
  | .err e => (e.context ctx).map RResult.err


/-- The string `t` occurs contiguously inside `s`. -/
def substrOf (t s : String) : Prop :=
  ∃ a b : String, s = a ++ t ++ b

theorem substrOf_self (s : String) : substrOf s s :=
  ⟨"", "", by simp [String.empty_append, String.append_empty]⟩

theorem substrOf_append_left (p : String) {t s : String} (h : substrOf t s) :
    substrOf t (p ++ s) := by
  obtain ⟨a, b, rfl⟩ := h
  exact ⟨p ++ a, b, by simp [String.append_assoc]⟩

theorem substrOf_append_right (q : String) {t s : String} (h : substrOf t s) :
    substrOf t (s ++ q) := by
  obtain ⟨a, b, rfl⟩ := h
  exact ⟨a, b ++ q, by simp [String.append_assoc]⟩

theorem substrOf_trans {t u s : String} (h1 : substrOf t u) (h2 : substrOf u s) :
    substrOf t s := by
  obtain ⟨a, b, rfl⟩ := h1
  obtain ⟨c, d, rfl⟩ := h2
  exact ⟨c ++ a, b ++ d, by simp [String.append_assoc]⟩

theorem substrOf_joinSep (sep x : String) :
    ∀ l : List String, x ∈ l → substrOf x (joinSep sep l)
  | [], h => absurd h (by simp)
  | [y], h => by
      obtain rfl : x = y := by simpa using h
      simpa [joinSep] using substrOf_self x
  | y :: z :: zs, h => by
      rcases List.mem_cons.mp h with rfl | h'
      · have h1 : substrOf x (x ++ sep) := substrOf_append_right sep (substrOf_self x)
        simpa [joinSep] using substrOf_append_right (joinSep sep (z :: zs)) h1
      · have ih := substrOf_joinSep sep x (z :: zs) h'
        simpa [joinSep] using substrOf_append_left (y ++ sep) ih

theorem substrOf_location_layer (l : Layer) :
    substrOf l.location.render (Layer.render l) := by
  cases hc : l.context with
  | none => exact ⟨"@ ", "", by simp [Layer.render, hc, String.append_empty]⟩
  | some c =>
      exact ⟨c ++ " @ ", "", by simp [Layer.render, hc, String.append_assoc, String.append_empty]⟩

theorem substrOf_context_layer (l : Layer) (c : String) (hc : l.context = some c) :
    substrOf c (Layer.render l) :=
  ⟨"", " @ " ++ l.location.render, by
    simp [Layer.render, hc, String.append_assoc, String.empty_append]⟩

/-- Concrete call sites used in concrete instantiations. -/
def locA : Location := ⟨"main.rs", 10, 5⟩

def locB : Location := ⟨"main.rs", 20, 9⟩

def locC : Location := ⟨"main.rs", 30, 13⟩

/-- One propagation boundary applied to a wrapped result: enrich either with
`report` (no annotation) or with `report_with_context` (annotated), at the
given location. -/
def applyStep (r : RResult α (Report ε)) (s : Location × Option String) :
    RResult α (Report ε) :=
  match s.2 with
  | none => Wrapped.report s.1 r
  | some ctx => Wrapped.report_with_context s.1 ctx r

theorem foldl_applyStep_err {α : Type u} {ε : Type v} :
    ∀ (steps : List (Location × Option String)) (w : Report ε),
    ∃ (r : Report ε) (pre : List Layer),
      steps.foldl applyStep (RResult.err w : RResult α (Report ε)) = RResult.err r
      ∧ r.layers = pre ++ w.layers ∧ r.inner = w.inner
  | [], w => ⟨w, [], rfl, by simp, rfl⟩
  | ⟨loc', none⟩ :: ss, w => by
      obtain ⟨r, pre, h1, h2, h3⟩ :=
        foldl_applyStep_err (α := α) ss
          ⟨w.inner, { context := none, location := loc' } :: w.layers⟩
      refine ⟨r, pre ++ [⟨none, loc'⟩], ?_, ?_, h3⟩
      · simpa [applyStep, Wrapped.report] using h1
      · simp [h2]
  | ⟨loc', some c⟩ :: ss, w => by
      obtain ⟨r, pre, h1, h2, h3⟩ :=
        foldl_applyStep_err (α := α) ss
          ⟨w.inner, { context := some c, location := loc' } :: w.layers⟩
      refine ⟨r, pre ++ [⟨some c, loc'⟩], ?_, ?_, h3⟩
      · simpa [applyStep, Wrapped.report_with_context] using h1
      · simp [h2]

/-- C3: for every owned failure value `f` (no precondition on `f`),
`Report::new f` returns a wrapper with exactly one layer, whose single layer
has an absent annotation and carries the call site of `new`; lifting a raw
failure through `report` on a result produces exactly that wrapper. -/
theorem c3_single_lift {α ε : Type} (f : ε) (loc : Location) :
    (Report.new f loc).layers = [{ context := none, location := loc }]
    ∧ (Report.new f loc).layers.length = 1
    ∧ (Report.new f loc).inner = f
    ∧ (Raw.report loc (RResult.err f) : RResult α (Report ε)) =
        RResult.err (Report.new f loc) :=
  ⟨rfl, rfl, rfl, rfl⟩

/-- C1: enriching a result whose failure payload is already a wrapper `w`
built from `f` — by `report`, `report_with_context`, or `untyped_report` —
yields a wrapper whose inner failure is still `f` (not a nested wrapper),
with exactly one more layer than `w`, the added layer having an absent
annotation for `report`/`untyped_report` and the supplied text for
`report_with_context`. -/
theorem c1_no_double_wrap {α ε : Type} [Disp ε] (f : ε) (w : Report ε)
    (hw : w.inner = f) (loc : Location) (ctx : String) :
    ((Wrapped.report loc (RResult.err w) : RResult α (Report ε)) =
        RResult.err { inner := f, layers := ⟨none, loc⟩ :: w.layers }
      ∧ (⟨none, loc⟩ :: w.layers).length = w.layers.length + 1)
    ∧ ((Wrapped.report_with_context loc ctx (RResult.err w) :
          RResult α (Report ε)) =
        RResult.err { inner := f, layers := ⟨some ctx, loc⟩ :: w.layers }
      ∧ (⟨some ctx, loc⟩ :: w.layers).length = w.layers.length + 1)
    ∧ ((Wrapped.untyped_report loc (RResult.err w) :
          RResult α (Report AnyError)) =
        RResult.err { inner := ⟨ε, f, Disp.disp⟩,
                      layers := ⟨none, loc⟩ :: w.layers }) := by
  subst hw
  exact ⟨⟨rfl, rfl⟩, ⟨rfl, rfl⟩, rfl⟩

/-- Witness for C1 at a concrete one-layer wrapper around `"disk full"`. -/
theorem c1_no_double_wrap_witness :
    (Wrapped.report locB (RResult.err (Report.new "disk full" locA)) :
        RResult Unit (Report String)) =
      RResult.err { inner := "disk full",
                    layers := [⟨none, locB⟩, ⟨none, locA⟩] } :=
  (c1_no_double_wrap "disk full" (Report.new "disk full" locA) rfl locB
    "writing checkpoint").1.1

/-- C2 counterexample: after one enrichment the layer at index 0 is the
freshly added enrichment layer, not the lift-site layer — `report` on an
already-wrapped failure prepends via `layers.insert(0, ..)`, so the
lift-site layer does not stay at index 0. -/
theorem c2_counterexample :
    (Wrapped.report locB (RResult.err (Report.new "boom" locA)) :
        RResult Unit (Report String)) =
      RResult.err { inner := "boom", layers := [⟨none, locB⟩, ⟨none, locA⟩] }
    ∧ ([⟨none, locB⟩, ⟨none, locA⟩] : List Layer).head? ≠
        some ⟨none, locA⟩ := by
  exact ⟨rfl, by decide⟩

/-- C2 (amended): the lift-site layer sits at index 0 of a freshly lifted
wrapper, and every enrichment prepends its one new layer at index 0, so
after any sequence of enrichments the first-captured (lift-site) layer is
the LAST layer of the sequence, all earlier layers being prepended
enrichment layers. -/
theorem c2_lift_layer_last {α ε : Type} (f : ε) (loc : Location)
    (steps : List (Location × Option String)) :
    (Report.new f loc).layers = [{ context := none, location := loc }]
    ∧ ∃ (r : Report ε) (pre : List Layer),
        steps.foldl applyStep
            (RResult.err (Report.new f loc) : RResult α (Report ε)) =
          RResult.err r
        ∧ r.layers = pre ++ [{ context := none, location := loc }]
        ∧ r.inner = f := by
  refine ⟨rfl, ?_⟩
  obtain ⟨r, pre, h1, h2, h3⟩ :=
    foldl_applyStep_err (α := α) steps (Report.new f loc)
  exact ⟨r, pre, h1, h2, h3⟩

/-- C4 counterexample: on a two-layer wrapper built by lifting at `locA` and
enriching at `locB`, the `context` capability annotates the layer at index 0
(the enrichment layer at `locB`), while the lift-site layer at `locA` keeps
its absent annotation — not what the claim predicts (annotating the
lift-site layer and leaving the rest unchanged). -/
theorem c4_counterexample :
    resContext "writing"
        (Wrapped.report locB
          (Raw.report locA (RResult.err "boom" : RResult Unit String))) =
      some (RResult.err { inner := "boom",
                          layers := [⟨some "writing", locB⟩, ⟨none, locA⟩] })
    ∧ resContext "writing"
        (Wrapped.report locB
          (Raw.report locA (RResult.err "boom" : RResult Unit String))) ≠
      some (RResult.err { inner := "boom",
                          layers := [⟨none, locB⟩, ⟨some "writing", locA⟩] }) := by
  exact ⟨rfl, by decide⟩

/-- C4 (amended): for every wrapper, `context` sets the annotation of the
layer at index 0 — which, once the wrapper has been enriched, is the most
recently added layer, not the lift-site layer — and changes nothing else:
all the other layers, the annotated layer's location, the inner failure
value, and the layer count are unchanged. -/
theorem c4_context_first_layer {α ε : Type} (r : Report ε) (l : Layer)
    (ls : List Layer) (h : r.layers = l :: ls) (ctx : String) :
    resContext ctx (RResult.err r : RResult α (Report ε)) =
      some (RResult.err { inner := r.inner,
                          layers := { context := some ctx,
                                      location := l.location } :: ls })
    ∧ ({ context := some ctx, location := l.location } :: ls : List Layer).length =
        r.layers.length := by
  constructor
  · simp [resContext, Report.context, h]
  · simp [h]

/-- Witness for C4 (amended) at a concrete two-layer wrapper. -/
theorem c4_context_first_layer_witness :
    resContext "t"
        (RResult.err ({ inner := "boom",
                        layers := [⟨none, locB⟩, ⟨none, locA⟩] } : Report String) :
          RResult Unit (Report String)) =
      some (RResult.err { inner := "boom",
                          layers := [⟨some "t", locB⟩, ⟨none, locA⟩] }) :=
  (c4_context_first_layer
    { inner := "boom", layers := [⟨none, locB⟩, ⟨none, locA⟩] }
    ⟨none, locB⟩ [⟨none, locA⟩] rfl "t").1

/-- C6: each propagation capability passes a success value through unchanged
(`report`, `report_with_context`, `untyped_report` over both the raw and the
already-wrapped specializations, plus `untyped_err` and `context`); the
capabilities themselves never fail: the only potentially panicking path —
`context` through `first_mut().expect(..)` — succeeds on every wrapper with
a non-empty layer list, and `report_with_context` on a raw failure always
succeeds. -/
theorem c6_ok_passthrough {α ε : Type} [Disp ε] (v : α) (loc : Location)
    (ctx : String) :
    (Raw.report loc (RResult.ok v : RResult α ε) = RResult.ok v)
    ∧ (Raw.report_with_context loc ctx (RResult.ok v : RResult α ε) =
        some (RResult.ok v))
    ∧ (Raw.untyped_report loc (RResult.ok v : RResult α ε) = RResult.ok v)
    ∧ (Wrapped.report loc (RResult.ok v : RResult α (Report ε)) = RResult.ok v)
    ∧ (Wrapped.report_with_context loc ctx
        (RResult.ok v : RResult α (Report ε)) = RResult.ok v)
    ∧ (Wrapped.untyped_report loc (RResult.ok v : RResult α (Report ε)) =
        RResult.ok v)
    ∧ (untyped_err (RResult.ok v : RResult α (Report ε)) = RResult.ok v)
    ∧ (resContext ctx (RResult.ok v : RResult α (Report ε)) =
        some (RResult.ok v))
    ∧ (∀ f : ε, (Raw.report_with_context loc ctx
        (RResult.err f : RResult α ε)).isSome = true)
    ∧ (∀ w : Report ε, w.layers ≠ [] →
        (resContext ctx (RResult.err w : RResult α (Report ε))).isSome = true) := by
  refine ⟨rfl, rfl, rfl, rfl, rfl, rfl, rfl, rfl, fun f => rfl, fun w hw => ?_⟩
  rcases w with ⟨i, ls⟩
  cases ls with
  | nil => exact absurd rfl hw
  | cons l ls => rfl

/-- Witness for C6: the `context` capability succeeds on a concrete
freshly lifted (hence non-empty-layered) wrapper. -/
theorem c6_ok_passthrough_witness :
    (resContext "t" (RResult.err (Report.new "e" locA) :
        RResult Unit (Report String))).isSome = true :=
  (c6_ok_passthrough (α := Unit) (ε := String) () locB "t").2.2.2.2.2.2.2.2.2
    (Report.new "e" locA) (by simp [Report.new])

/-- C7: type erasure (`into_untyped` on a wrapper, `untyped_err` on a
result) preserves the layer sequence exactly and keeps the inner failure
value itself (same erased package value, same rendered form); only the
static type of the failure slot changes, and the success side of a result
is untouched. -/
theorem c7_erasure_preserves {α ε : Type} [Disp ε] (r : Report ε) (v : α)
    (w : Report ε) :
    (r.into_untyped).layers = r.layers
    ∧ (r.into_untyped).inner.ty = ε
    ∧ (r.into_untyped).inner.val = r.inner
    ∧ Disp.disp (r.into_untyped).inner = Disp.disp r.inner
    ∧ untyped_err (RResult.err w : RResult α (Report ε)) =
        RResult.err w.into_untyped
    ∧ untyped_err (RResult.ok v : RResult α (Report ε)) = RResult.ok v :=
  ⟨rfl, rfl, rfl, rfl, rfl, rfl⟩

/-- Helper observation of a failing result: the rendered text of its
`Report`, `none` on the success side (models "then rendered"). -/
def renderErr {α : Type u} {ε : Type v} [Disp ε] :
    RResult α (Report ε) → Option String
  | .ok _ => none
  | .err e => some (Report.render e)

/-- C8: passing a failing result through `untyped_report` gives exactly the
same result — hence, rendered, exactly the same text — as passing it through
`report` followed by the separate erasure step `untyped_err`; erasure is
transparent to rendering. -/
theorem c8_erasure_transparent {α ε : Type} [Disp ε] (x : RResult α ε)
    (loc : Location) :
    Raw.untyped_report loc x = untyped_err (Raw.report loc x)
    ∧ renderErr (Raw.untyped_report loc x) =
        renderErr (untyped_err (Raw.report loc x)) := by
  cases x with
  | ok v => exact ⟨rfl, rfl⟩
  | err e => exact ⟨rfl, rfl⟩

/-- C5: rendering a wrapper to text is a total pure function; the output
begins with the inner failure's own textual form, equals that form followed
by every layer's rendering joined in layer-sequence order with the fixed
separators (`": "` then `", "`), and contains a substring for every layer's
rendering, every layer's location, and every present annotation — no layer
is omitted. -/
theorem c5_rendering_complete {ε : Type} [Disp ε] (r : Report ε) :
    (∃ rest, Report.render r = Disp.disp r.inner ++ rest)
    ∧ Report.render r =
        Disp.disp r.inner ++ ": " ++ joinSep ", " (r.layers.map Layer.render)
    ∧ ∀ l ∈ r.layers,
        substrOf (Layer.render l) (Report.render r)
        ∧ substrOf l.location.render (Report.render r)
        ∧ ∀ c, l.context = some c → substrOf c (Report.render r) := by
  refine ⟨⟨": " ++ joinSep ", " (r.layers.map Layer.render), ?_⟩, rfl, ?_⟩
  · simp [Report.render, String.append_assoc]
  · intro l hl
    have hmem : Layer.render l ∈ r.layers.map Layer.render :=
      List.mem_map_of_mem _ hl
    have hj := substrOf_joinSep ", " (Layer.render l) _ hmem
    have hlay : substrOf (Layer.render l) (Report.render r) :=
      substrOf_append_left (Disp.disp r.inner ++ ": ") hj
    exact ⟨hlay, substrOf_trans (substrOf_location_layer l) hlay,
      fun c hc => substrOf_trans (substrOf_context_layer l c hc) hlay⟩

/-- A concrete five-layer wrapper used to instantiate the rendering claim. -/
def w5 : Report String :=
  { inner := "disk full",
    layers := [⟨some "c5", locC⟩, ⟨none, locB⟩, ⟨some "c3", locC⟩,
               ⟨none, locB⟩, ⟨none, locA⟩] }

/-- Witness for C5 on the five-layer chain `w5`: the lift-site location and
a mid-chain annotation both occur in the rendered text. -/
theorem c5_rendering_complete_witness :
    substrOf (Location.render locA) (Report.render w5)
    ∧ substrOf "c3" (Report.render w5) := by
  constructor
  · exact ((c5_rendering_complete w5).2.2 ⟨none, locA⟩ (by decide)).2.1
  · exact ((c5_rendering_complete w5).2.2 ⟨some "c3", locC⟩ (by decide)).2.2
      "c3" rfl

/-- C9: every wrapper produced by the public entry points has a non-empty
layer list — `new` and both `From` conversions establish it, `into_untyped`
and the enrichment capabilities preserve (indeed grow) it — so the
`first_mut().expect(..)` branch inside `context` (the `none` branch of this
embedding) is unreachable for such wrappers, and `context` itself preserves
non-emptiness. -/
theorem c9_layers_nonempty {α ε : Type} [Disp ε] (f : ε) (a : AnyError)
    (w : Report ε) (loc : Location) (ctx : String) :
    (Report.new f loc).layers ≠ []
    ∧ (Report.fromE f loc).layers ≠ []
    ∧ (Report.fromBoxAny a loc).layers ≠ []
    ∧ (w.into_untyped).layers = w.layers
    ∧ (∀ r : Report ε,
        Wrapped.report loc (RResult.err w : RResult α (Report ε)) =
          RResult.err r → r.layers ≠ [])
    ∧ (∀ r : Report ε,
        Wrapped.report_with_context loc ctx
            (RResult.err w : RResult α (Report ε)) =
          RResult.err r → r.layers ≠ [])
    ∧ (∀ r : Report AnyError,
        Wrapped.untyped_report loc (RResult.err w : RResult α (Report ε)) =
          RResult.err r → r.layers ≠ [])
    ∧ (∀ r : Report ε,
        Raw.report loc (RResult.err f : RResult α ε) =
          RResult.err r → r.layers ≠ [])
    ∧ (w.layers ≠ [] → (w.context ctx).isSome = true)
    ∧ (w.layers ≠ [] → ∀ r', w.context ctx = some r' → r'.layers ≠ []) := by
  refine ⟨by simp [Report.new], by simp [Report.fromE, Report.new],
    by simp [Report.fromBoxAny], rfl, ?_, ?_, ?_, ?_, ?_, ?_⟩
  · intro r h
    simp only [Wrapped.report, RResult.err.injEq] at h
    subst h
    simp
  · intro r h
    simp only [Wrapped.report_with_context, RResult.err.injEq] at h
    subst h
    simp
  · intro r h
    simp only [Wrapped.untyped_report, RResult.err.injEq] at h
    subst h
    simp
  · intro r h
    simp only [Raw.report, RResult.err.injEq] at h
    subst h
    simp [Report.new]
  · intro hw
    rcases w with ⟨i, ls⟩
    cases ls with
    | nil => exact absurd rfl hw
    | cons l ls => rfl
  · intro hw r' h
    rcases w with ⟨i, ls⟩
    cases ls with
    | nil => exact absurd rfl hw
    | cons l ls =>
        simp only [Report.context, Option.some.injEq] at h
        subst h
        simp

/-- Witness for C9: on a concrete freshly lifted wrapper the `expect`
branch of `context` is not taken. -/
theorem c9_layers_nonempty_witness :
    ((Report.new "disk full" locA).context "t").isSome = true :=
  (c9_layers_nonempty (α := Unit) "disk full" ⟨String, "boom", fun s => s⟩
      (Report.new "disk full" locA) locB "t").2.2.2.2.2.2.2.2.1
    (by simp [Report.new])

/-- C10 (implicit): the `Debug` rendering of a wrapper prints only the inner
failure value; it does not depend on the layer sequence at all, so no layer
location or annotation reaches the `Debug` output regardless of how many
layers the wrapper holds — only the `Display` rendering carries the
provenance history. -/
theorem c10_debug_omits_layers {ε : Type} (dbg : ε → String) (r : Report ε)
    (ls : List Layer) :
    Report.debugRender dbg { inner := r.inner, layers := ls } =
      Report.debugRender dbg r
    ∧ Report.debugRender dbg r =
        Report.debugRender dbg { inner := r.inner, layers := [] }
    ∧ Report.debugRender dbg r =
        "Report \x7b inner: " ++ dbg r.inner ++ " \x7d" :=
  ⟨rfl, rfl, rfl⟩

end ErrReport
